import Mathlib

/-!
Verification of the macscope monitor engine (process suspicion classifier,
collectors, codesign worker pool, scan scheduler, process store and
websocket push protocol) against its natural-language specification.

The TypeScript sources are shallowly embedded: JS strings become `String`
(manipulated through their `List Char` data), JS `number` values that are
used as integers become `Nat`/`Int`, percentages become `ℚ`, `undefined`
becomes `none`, and fallible subprocess calls become `Except`/`Option`
parameters.  JS truthiness of optional strings/numbers is modelled
explicitly where the source relies on it.
-/

namespace Macscope

/-! ### JS string primitives -/

/-- JS `String.prototype.toLowerCase` restricted to ASCII (all strings the
classifier compares are ASCII; Unicode simple case mapping agrees there). -/
def jsCharLower (c : Char) : Char :=
  if 'A' ≤ c ∧ c ≤ 'Z' then Char.ofNat (c.toNat + 32) else c

/-- Lower-case a string, character by character (JS `toLowerCase`). -/
def jsToLower (s : String) : String := ⟨s.data.map jsCharLower⟩

/-- Substring search over character lists: does `s` contain `pat`
as a contiguous run?  Models JS `String.prototype.includes`. -/
def hasSub (s pat : List Char) : Bool :=
  match s with
  | [] => pat.isEmpty
  | c :: rest => pat.isPrefixOf (c :: rest) || hasSub rest pat

/-- JS `s.includes(pat)`. -/
def strContains (s pat : String) : Bool := hasSub s.data pat.data

/-- JS `s.startsWith(pre)`. -/
def jsStartsWith (s pre : String) : Bool := pre.data.isPrefixOf s.data

/-- JS `s.endsWith(suf)`. -/
def jsEndsWith (s suf : String) : Bool := suf.data.isSuffixOf s.data

/-- Truthiness of an optional JS string (`undefined` and `""` are falsy). -/
def truthy : Option String → Bool
  | some s => s ≠ ""
  | none => false

/-- JS `o || ''` for an optional string. -/
def orEmpty (o : Option String) : String := o.getD ""

/-- JS whitespace test for the characters that occur in the embedded data
(space, tab, carriage return, newline). -/
def isWs (c : Char) : Bool := c = ' ' || c = '\t' || c = '\r' || c = '\n'

/-- First token of JS `s.split(' ')`: the characters before the first
space (the whole string when it has no space). -/
def headSpaceToken (s : String) : String := ⟨s.data.takeWhile (· ≠ ' ')⟩

/-- JS `String.prototype.trim` (strip whitespace from both ends). -/
def jsTrim (s : String) : String :=
  ⟨((s.data.dropWhile isWs).reverse.dropWhile isWs).reverse⟩

/-- JS `token.replace(/^"|"$/g, '')`: drop one leading and one trailing
double quote when present. -/
def stripQuotes (s : String) : String :=
  let l := match s.data with
    | '"' :: rest => rest
    | other => other
  let l := if l.getLast? = some '"' then l.dropLast else l
  ⟨l⟩

/-- Replace the first occurrence of `'~'` in `s` by `home`
(JS `s.replace('~', home)` replaces only the first match of a string
pattern). -/
def replaceTildeChars : List Char → List Char → List Char
  | [], _ => []
  | c :: rest, home => if c = '~' then home ++ rest else c :: replaceTildeChars rest home

/-- String-level wrapper for `replaceTildeChars`. -/
def replaceTilde (s home : String) : String := ⟨replaceTildeChars s.data home.data⟩

/-- Greedy `\d+` at the head of a list: consume one digit and then every
following digit, or fail. -/
def eatDigits : List Char → Option (List Char)
  | c :: rest => if c.isDigit then some (rest.dropWhile Char.isDigit) else none
  | [] => none

/-- Does the regex `\d+\.\d+\.\d+\.\d+` match at the head of the list?
(Backtracking is irrelevant: `\d+` can never give back a digit to match a
literal dot.) -/
def ipv4At (l : List Char) : Bool :=
  match eatDigits l with
  | some ('.' :: l₂) =>
    match eatDigits l₂ with
    | some ('.' :: l₄) =>
      match eatDigits l₄ with
      | some ('.' :: l₆) => (eatDigits l₆).isSome
      | _ => false
    | _ => false
  | _ => false

/-- Search every suffix for an IPv4-shaped match. -/
def ipv4Search : List Char → Bool
  | [] => ipv4At []
  | c :: rest => ipv4At (c :: rest) || ipv4Search rest

/-- JS `/\d+\.\d+\.\d+\.\d+/.test(s)`. -/
def hasIPv4 (s : String) : Bool := ipv4Search s.data

/-! ### Data model (src/src/types.ts) -/

/-- Suspicion levels, totally ordered LOW < MED < HIGH < CRITICAL. -/
inductive SuspicionLevel
  | LOW
  | MED
  | HIGH
  | CRITICAL
deriving DecidableEq

/-- Numeric rank of a level (used to state the total order). -/
def levelRank : SuspicionLevel → Nat
  | .LOW => 0
  | .MED => 1
  | .HIGH => 2
  | .CRITICAL => 3

/-- `ProcInfo` from src/src/types.ts (fields the engine reads). -/
structure ProcInfo where
  pid : Nat := 0
  ppid : Option Nat := none
  name : Option String := none
  cmd : Option String := none
  user : Option String := none
  cpu : Option ℚ := none
  mem : Option ℚ := none
  execPath : Option String := none
deriving DecidableEq

/-- `ConnSummary` from src/src/types.ts.  The JS `Set<string>` of remote
samples is modelled as its (duplicate-free, insertion-ordered) element
list. -/
structure ConnSummary where
  outbound : Nat := 0
  listen : Nat := 0
  sampleRemotes : List String := []
deriving DecidableEq

/-- `CodesignInfo` as produced by src/src/codesign.ts (the runtime objects
carry an `appStore` field). -/
structure CodesignInfo where
  teamIdentifier : Option String := none
  authorities : Option (List String) := none
  signed : Bool := false
  valid : Option Bool := none
  notarized : Option Bool := none
  identifier : Option String := none
  appStore : Option Bool := none
deriving DecidableEq

/-- `SUSPICIOUS_PATTERNS.keyloggers` from src/src/types.ts. -/
def keyloggerPatterns : List String :=
  ["keylog", "keystroke", "keypress", "keycapture", "inputmonitor",
   "keywatcher", "keyspy", "keyrecord", "keytrack", "keyboardspy",
   "inputcapture", "inputrecord", "inputlog", "inputspy", "eventlog",
   "tapkey", "keytap", "inputtap", "eventtap", "cgeventtap",
   "inputhook", "keyhook", "globalhook", "systemhook",
   "spytector", "refog", "ardamax", "actual", "elite", "ghostpress",
   "perfect", "invisible", "family", "employee", "computer", "monitoring"]

/-- `SUSPICIOUS_PATTERNS.screenRecorders`. -/
def screenRecorderPatterns : List String :=
  ["screencapture", "screenrecord", "screengrab", "screenshot",
   "screenspy", "screenwatch", "displaycapture", "recordscreen"]

/-- `SUSPICIOUS_PATTERNS.remoteAccess`. -/
def remoteAccessPatterns : List String :=
  ["teamviewer", "anydesk", "realvnc", "tightvnc", "ultravnc",
   "logmein", "gotomypc", "remotedesktop", "rdp", "ssh-agent",
   "nc", "netcat", "socat", "reverse", "backdoor", "rat"]

/-- `SUSPICIOUS_PATTERNS.cryptominers`. -/
def cryptominerPatterns : List String :=
  ["xmrig", "cgminer", "bfgminer", "ethminer", "minergate",
   "nicehash", "crypto", "bitcoin", "monero", "ethereum"]

/-- `SUSPICIOUS_PATTERNS.dataExfiltration`. -/
def dataExfiltrationPatterns : List String :=
  ["curl", "wget", "scp", "rsync", "ftp", "sftp", "dropbox",
   "gdrive", "onedrive", "megasync", "restic", "rclone"]

/-- `SUSPICIOUS_PATTERNS.suspicious`. -/
def suspiciousNamePatterns : List String :=
  ["payload", "exploit", "shellcode", "injection", "dropper",
   "trojan", "rootkit", "malware", "virus", "worm", "spyware"]

/-- `SUSPICIOUS_LOCATIONS` from src/src/types.ts. -/
def SUSPICIOUS_LOCATIONS : List String :=
  ["/tmp", "/var/tmp", "/dev/shm", "/private/tmp",
   "~/Downloads", "~/Desktop", "~/.Trash", "/Users/Shared",
   "/Library/LaunchAgents", "/Library/LaunchDaemons", "/Library/StartupItems",
   "~/Library/LaunchAgents", "~/Library/Application Support",
   "~/Library/Scripts", "~/.local/bin", "~/.config"]

/-- `TRUSTED_TEAMS` from src/src/types.ts (display names, compared by
exact array membership in the data-exfiltration rule). -/
def TRUSTED_TEAMS : List String :=
  ["Apple Inc.", "Microsoft Corporation", "Google LLC", "Adobe Inc.",
   "Mozilla Corporation"]

/-! ### checkBinaryTrust (src/src/codesign.ts, lines 77-129) -/

/-- Coarse trust classification of a code signature. -/
inductive TrustLevel
  | trusted
  | verified
  | unknown
  | suspicious
  | malicious
deriving DecidableEq

/-- Result of `checkBinaryTrust`. -/
structure TrustCheck where
  trustLevel : TrustLevel
  reasons : List String
deriving DecidableEq

/-- The reverse-DNS prefixes `checkBinaryTrust` compares team identifiers
against (distinct from `TRUSTED_TEAMS`). -/
def trustedTeamIdFragments : List String :=
  ["com.apple", "com.microsoft", "com.google", "org.mozilla", "com.adobe"]

/-- `checkBinaryTrust` from src/src/codesign.ts. -/
def checkBinaryTrust : Option CodesignInfo → TrustCheck
  | none => ⟨.unknown, ["no-codesign-info"]⟩
  | some info =>
    if !info.signed then ⟨.suspicious, ["unsigned"]⟩
    else if info.valid = some false then ⟨.malicious, ["invalid-signature"]⟩
    else if (match info.teamIdentifier with
             | some t => t ≠ "" &&
                 trustedTeamIdFragments.any (fun team => strContains (jsToLower t) team)
             | none => false) then ⟨.trusted, ["trusted-vendor"]⟩
    else if info.appStore = some true then ⟨.trusted, ["app-store"]⟩
    else if info.notarized = some true then ⟨.verified, ["notarized"]⟩
    else if (match info.authorities with
             | some auths => decide (auths.length > 0)
             | none => false) then ⟨.verified, ["developer-signed"]⟩
    else ⟨.unknown, ["unverified"]⟩

/-! ### analyzeSecurity (src/src/security.ts)

The function body is a fixed sequence of rule blocks mutating
`(level, reasons)`.  Each block becomes one Lean function on the
accumulator state, and `analyzeSecurity` is their composition in source
order, so theorems can speak about the state between two rules. -/

/-- All inputs of `analyzeSecurity`, plus the ambient environment it reads
(`process.env.USER` and `os.homedir()`). -/
structure SecInput where
  proc : ProcInfo
  conn : Option ConnSummary := none
  launchd : Option String := none
  csig : Option CodesignInfo := none
  parentProc : Option ProcInfo := none
  envUser : Option String := none
  homeDir : String := "/Users/u"

/-- The mutable accumulator of `analyzeSecurity`: current level and the
reason codes pushed so far. -/
structure AState where
  level : SuspicionLevel
  reasons : List String
deriving DecidableEq

/-- `reasons.push(r)`. -/
def pushReason (s : AState) (r : String) : AState :=
  { s with reasons := s.reasons ++ [r] }

/-- `isKeylogger` (security.ts lines 16-20): any keylogger pattern in the
lower-cased name, cmd or execPath. -/
def isKeylogger (inp : SecInput) : Bool :=
  keyloggerPatterns.any fun pattern =>
    strContains (jsToLower (orEmpty inp.proc.name)) pattern ||
    strContains (jsToLower (orEmpty inp.proc.cmd)) pattern ||
    strContains (jsToLower (orEmpty inp.proc.execPath)) pattern

/-- Lines 22-30: keylogger with/without network activity. -/
def ruleKeylogger (inp : SecInput) (s : AState) : AState :=
  if isKeylogger inp then
    match inp.conn with
    | some conn =>
      if conn.outbound > 0 then
        { pushReason s "keylogger-with-network-activity" with level := .CRITICAL }
      else
        { pushReason s "keylogger-pattern" with level := .HIGH }
    | none => { pushReason s "keylogger-pattern" with level := .HIGH }
  else s

/-- `inputMonitoringApis` (lines 33-36), matched case-sensitively. -/
def inputMonitoringApis : List String :=
  ["CGEventTap", "IOHIDManager", "NSEvent", "kIOHIDElement",
   "eventtap", "inputmethod", "accessibility"]

/-- `hasInputMonitoring` (lines 38-40). -/
def hasInputMonitoring (inp : SecInput) : Bool :=
  inputMonitoringApis.any fun api =>
    strContains (orEmpty inp.proc.cmd) api ||
    strContains (orEmpty inp.proc.execPath) api

/-- Lines 42-45: input monitoring with more than 2 outbound connections. -/
def ruleInputMonitoringNetwork (inp : SecInput) (s : AState) : AState :=
  match inp.conn with
  | some conn =>
    if hasInputMonitoring inp ∧ conn.outbound > 2 then
      { pushReason s "input-monitoring-with-network" with level := .CRITICAL }
    else s
  | none => s

/-- The per-remote heuristic of lines 49-58. -/
def suspiciousRemote (remote : String) : Bool :=
  !strContains remote "apple.com" &&
  !strContains remote "icloud.com" &&
  !strContains remote "localhost" &&
  !strContains remote "127.0.0.1" &&
  (strContains remote ".ru" || strContains remote ".cn" ||
   strContains remote ".tk" || strContains remote ".onion" ||
   hasIPv4 remote)

/-- Lines 47-64: suspicious data-upload pattern. -/
def ruleDataUpload (inp : SecInput) (s : AState) : AState :=
  match inp.conn with
  | some conn =>
    if conn.outbound > 10 ∧ conn.sampleRemotes.length > 5 then
      if conn.sampleRemotes.any suspiciousRemote then
        { pushReason s "suspicious-data-upload-pattern" with
          level := if s.level = .CRITICAL then s.level else .HIGH }
      else s
    else s
  | none => s

/-- Lines 66-70: unsigned binary with input-monitoring capabilities. -/
def ruleUnsignedInputMonitor (inp : SecInput) (s : AState) : AState :=
  match inp.csig with
  | some csig =>
    if hasInputMonitoring inp ∧ !csig.signed then
      { pushReason s "unsigned-input-monitor" with level := .CRITICAL }
    else s
  | none => s

/-- Lines 72-83: input monitoring spawned from a browser/document app. -/
def ruleBrowserSpawnedInputMonitor (inp : SecInput) (s : AState) : AState :=
  match inp.parentProc with
  | some parentProc =>
    if hasInputMonitoring inp ∧
       (["safari", "chrome", "firefox", "edge", "word", "excel",
         "powerpoint", "preview"].any fun parent =>
          strContains (jsToLower (orEmpty parentProc.name)) parent) then
      { pushReason s "browser-spawned-input-monitor" with
        level := if s.level = .CRITICAL then s.level else .HIGH }
    else s
  | none => s

/-- `hasAccessibilityAccess` (lines 86-88). -/
def hasAccessibilityAccess (inp : SecInput) : Bool :=
  strContains (orEmpty inp.proc.cmd) "accessibility" ||
  strContains (orEmpty inp.proc.execPath) "accessibility" ||
  (match inp.launchd with
   | some l => strContains l "accessibility"
   | none => false)

/-- Lines 90-93: accessibility access with network connections. -/
def ruleAccessibilityNetwork (inp : SecInput) (s : AState) : AState :=
  match inp.conn with
  | some conn =>
    if hasAccessibilityAccess inp ∧ conn.outbound > 1 then
      { pushReason s "accessibility-with-network" with level := .CRITICAL }
    else s
  | none => s

/-- Lines 96-98: process owned by neither the env user, root nor _www. -/
def ruleDifferentUser (inp : SecInput) (s : AState) : AState :=
  match inp.proc.user with
  | some u =>
    if u != "" &&
       (match inp.envUser with
        | some envU => u != envU
        | none => true) &&
       u != "root" && u != "_www" then
      pushReason s "different-user"
    else s
  | none => s

/-- Lines 101-103: `/launchd|agent|daemon/i` on cmd. -/
def ruleAgentIsh (inp : SecInput) (s : AState) : AState :=
  if ["launchd", "agent", "daemon"].any
       (fun w => strContains (jsToLower (orEmpty inp.proc.cmd)) w) then
    pushReason s "agent-ish"
  else s

/-- Lines 106-108: launchd managed. -/
def ruleLaunchdManaged (inp : SecInput) (s : AState) : AState :=
  if truthy inp.launchd then pushReason s "launchd-managed" else s

/-- Lines 111-113: known management-suite vendors. -/
def ruleMgmtSuite (inp : SecInput) (s : AState) : AState :=
  if ["jamf", "crowdstrike", "zscaler", "netskope", "tanium", "sentinel",
      "carbon", "defender", "sophos", "mcafee", "symantec",
      "kaspersky"].any
       (fun w => strContains (jsToLower (orEmpty inp.proc.cmd)) w) then
    pushReason s "mgmt-suite"
  else s

/-- Lines 116-118: more than 20 total connections. -/
def ruleManyConnections (inp : SecInput) (s : AState) : AState :=
  match inp.conn with
  | some conn =>
    if conn.outbound + conn.listen > 20 then pushReason s "many-connections"
    else s
  | none => s

/-- Lines 121-124: more than 50 outbound connections.  Note the source
assigns `level = 'MED'` unconditionally. -/
def ruleExcessiveOutbound (inp : SecInput) (s : AState) : AState :=
  match inp.conn with
  | some conn =>
    if conn.outbound > 50 then
      { pushReason s "excessive-outbound" with level := .MED }
    else s
  | none => s

/-- Lines 126-136: second keylogger scan over cmd/name (first match wins;
the pushed reason and level are the same for every pattern). -/
def ruleKeyloggerLoop (inp : SecInput) (s : AState) : AState :=
  if keyloggerPatterns.any fun pattern =>
       strContains (jsToLower (orEmpty inp.proc.cmd)) pattern ||
       strContains (jsToLower (orEmpty inp.proc.name)) pattern then
    { pushReason s "keylogger-pattern" with level := .HIGH }
  else s

/-- Lines 139-145: screen recorders.  The source assigns `level = 'MED'`
unconditionally. -/
def ruleScreenRecorders (inp : SecInput) (s : AState) : AState :=
  if screenRecorderPatterns.any fun pattern =>
       strContains (jsToLower (orEmpty inp.proc.cmd)) pattern ||
       strContains (jsToLower (orEmpty inp.proc.name)) pattern then
    { pushReason s "screen-recorder" with level := .MED }
  else s

/-- Lines 147-154: remote-access tools
(`level = level === 'HIGH' ? 'HIGH' : 'MED'`). -/
def ruleRemoteAccess (inp : SecInput) (s : AState) : AState :=
  if remoteAccessPatterns.any fun pattern =>
       strContains (jsToLower (orEmpty inp.proc.cmd)) pattern ||
       strContains (jsToLower (orEmpty inp.proc.name)) pattern then
    { pushReason s "remote-access" with
      level := if s.level = .HIGH then .HIGH else .MED }
  else s

/-- Lines 156-163: crypto miners. -/
def ruleCryptominers (inp : SecInput) (s : AState) : AState :=
  if cryptominerPatterns.any fun pattern =>
       strContains (jsToLower (orEmpty inp.proc.cmd)) pattern ||
       strContains (jsToLower (orEmpty inp.proc.name)) pattern then
    { pushReason s "cryptominer" with level := .HIGH }
  else s

/-- The trust condition of line 168: no signature, or no/empty team
identifier, or team identifier not in `TRUSTED_TEAMS`. -/
def exfilNotTrusted (inp : SecInput) : Bool :=
  match inp.csig with
  | none => true
  | some csig =>
    match csig.teamIdentifier with
    | none => true
    | some t => if t = "" then true else !(TRUSTED_TEAMS.contains t)

/-- Lines 165-174: data-exfiltration tools, suppressed for trusted teams. -/
def ruleDataExfiltration (inp : SecInput) (s : AState) : AState :=
  if dataExfiltrationPatterns.any fun pattern =>
       strContains (jsToLower (orEmpty inp.proc.cmd)) pattern ||
       strContains (jsToLower (orEmpty inp.proc.name)) pattern then
    if exfilNotTrusted inp then
      { pushReason s "data-exfiltration" with
        level := if s.level = .LOW then .MED else s.level }
    else s
  else s

/-- Lines 176-183: explicitly suspicious name terms. -/
def ruleSuspiciousName (inp : SecInput) (s : AState) : AState :=
  if suspiciousNamePatterns.any fun pattern =>
       strContains (jsToLower (orEmpty inp.proc.cmd)) pattern ||
       strContains (jsToLower (orEmpty inp.proc.name)) pattern then
    { pushReason s "suspicious-name" with level := .CRITICAL }
  else s

/-- Lines 186-198: execPath under a suspicious location (first match
wins; `~` expanded to the home directory on both sides). -/
def ruleSuspiciousLocations (inp : SecInput) (s : AState) : AState :=
  match inp.proc.execPath with
  | some ep =>
    if ep ≠ "" then
      let execPath := replaceTilde ep inp.homeDir
      match SUSPICIOUS_LOCATIONS.find?
          (fun location => jsStartsWith execPath (replaceTilde location inp.homeDir)) with
      | some location =>
        { pushReason s ("suspicious-location:" ++ location) with
          level := if s.level = .LOW then .MED else s.level }
      | none => s
    else s
  | none => s

/-- Lines 200-228: signature-trust handling via `checkBinaryTrust`. -/
def ruleSignatureTrust (inp : SecInput) (s : AState) : AState :=
  match inp.csig with
  | none => s
  | some csig =>
    let trustCheck := checkBinaryTrust (some csig)
    match trustCheck.trustLevel with
    | .malicious => { pushReason s "malicious-signature" with level := .CRITICAL }
    | .suspicious =>
      { level := if s.level = .LOW then .HIGH else s.level,
        reasons := s.reasons ++ trustCheck.reasons }
    | .unknown =>
      let s' := pushReason s "unknown-signature"
      if truthy inp.proc.execPath ∧
         !strContains (orEmpty inp.proc.execPath) "/usr/local/" then
        { s' with level := if s'.level = .LOW then .MED else s'.level }
      else s'
    | .verified =>
      if csig.notarized = some true then pushReason s "notarized" else s
    | .trusted =>
      let s' := pushReason s "trusted-binary"
      if s'.level = .MED ∧ s'.reasons.length ≤ 3 then
        { s' with level := .LOW }
      else s'

/-- Lines 230-245: parent-child injection checks.  Both sub-checks assign
their level unconditionally. -/
def ruleInjection (inp : SecInput) (s : AState) : AState :=
  match inp.parentProc with
  | none => s
  | some parentProc =>
    let s₁ :=
      if (["chrome", "safari", "firefox", "edge"].any fun w =>
            strContains (jsToLower (orEmpty parentProc.name)) w) ∧
         (["bash", "sh", "zsh", "python", "perl", "ruby", "node"].any fun w =>
            strContains (jsToLower (orEmpty inp.proc.name)) w) then
        { pushReason s "browser-spawned-shell" with level := .HIGH }
      else s
    if (["preview", "adobe", "word", "excel", "powerpoint"].any fun w =>
          strContains (jsToLower (orEmpty parentProc.name)) w) ∧
       (["bash", "sh", "curl", "wget", "nc"].any fun w =>
          strContains (jsToLower (orEmpty inp.proc.name)) w) then
      { pushReason s₁ "document-spawned-process" with level := .CRITICAL }
    else s₁

/-- Lines 248-251: names starting with a dot. -/
def ruleHiddenProcess (inp : SecInput) (s : AState) : AState :=
  if truthy inp.proc.name ∧ jsStartsWith (orEmpty inp.proc.name) "." then
    { pushReason s "hidden-process" with
      level := if s.level = .LOW then .MED else s.level }
  else s

/-- Lines 254-256: command present but no name. -/
def ruleUnnamedProcess (inp : SecInput) (s : AState) : AState :=
  if !truthy inp.proc.name ∧ truthy inp.proc.cmd then
    pushReason s "unnamed-process"
  else s

/-- Lines 258-269: combination adjustments. -/
def ruleCombos (s : AState) : AState :=
  let s₁ :=
    if s.reasons.contains "mgmt-suite" || s.reasons.contains "launchd-managed" then
      { s with level := if s.level = .LOW then .MED else s.level }
    else s
  let s₂ :=
    if s₁.reasons.length ≥ 3 ∧ s₁.level = .LOW then { s₁ with level := .MED }
    else s₁
  if s₂.reasons.length ≥ 5 then
    { s₂ with level := if s₂.level = .MED then .HIGH else s₂.level }
  else s₂

/-- State after the rules preceding the excessive-outbound block (used to
talk about the running level mid-pipeline). -/
def stateBeforeExcessiveOutbound (inp : SecInput) : AState :=
  ruleManyConnections inp (ruleMgmtSuite inp (ruleLaunchdManaged inp
    (ruleAgentIsh inp (ruleDifferentUser inp (ruleAccessibilityNetwork inp
      (ruleBrowserSpawnedInputMonitor inp (ruleUnsignedInputMonitor inp
        (ruleDataUpload inp (ruleInputMonitoringNetwork inp
          (ruleKeylogger inp ⟨.LOW, []⟩))))))))))

/-- `analyzeSecurity` from src/src/security.ts: the rule blocks composed
in source order, starting from `(LOW, [])`. -/
def analyzeSecurity (inp : SecInput) : AState :=
  ruleCombos (ruleUnnamedProcess inp (ruleHiddenProcess inp (ruleInjection inp
    (ruleSignatureTrust inp (ruleSuspiciousLocations inp (ruleSuspiciousName inp
      (ruleDataExfiltration inp (ruleCryptominers inp (ruleRemoteAccess inp
        (ruleScreenRecorders inp (ruleKeyloggerLoop inp (ruleExcessiveOutbound inp
          (stateBeforeExcessiveOutbound inp)))))))))))))

/-! ### Decimal formatting of JS numbers

JS renders integral numbers in decimal.  The formatter is written with
structural recursion on a fuel argument so that the kernel can evaluate
it. -/

/-- Digits of `n`, most significant first, with explicit fuel. -/
def natCharsAux : Nat → Nat → List Char
  | 0, _ => []
  | fuel + 1, n =>
    if n < 10 then [Nat.digitChar n]
    else natCharsAux fuel (n / 10) ++ [Nat.digitChar (n % 10)]

/-- Decimal digit list of a natural number. -/
def natChars (n : Nat) : List Char := natCharsAux (n + 1) n

/-- Decimal string of a natural number (JS `${n}` for n ≥ 0). -/
def natStr (n : Nat) : String := ⟨natChars n⟩

/-- Decimal digit list of an integer (JS `${i}` for integral values). -/
def intChars : Int → List Char
  | .ofNat n => natChars n
  | .negSucc n => '-' :: natChars (n + 1)

/-- Decimal string of an integer. -/
def intStr (i : Int) : String := ⟨intChars i⟩

/-! ### Collectors (src/src/proc.ts, conns.ts, launchctl.ts) and the
codesign entry guard (src/src/codesign.ts).

Subprocess invocations become `Except String` parameters: `.error e`
models the promise rejecting (timeout or spawn failure), `.ok out`
models captured stdout. -/

/-- `extractExecPath` from src/src/proc.ts lines 17-25: first token of
the trimmed command, quotes stripped, kept only when absolute or ending
in `.app`. -/
def extractExecPath (cmd : String) : Option String :=
  if cmd = "" then none
  else
    let token := headSpaceToken (jsTrim cmd)
    if token = "" then none
    else
      let cleanToken := stripQuotes token
      if jsStartsWith cleanToken "/" then some cleanToken
      else if jsEndsWith cleanToken ".app" then some cleanToken
      else none

/-- One record of the `ps-list` output consumed by `listProcesses`. -/
structure PsRawProc where
  pid : Nat := 0
  ppid : Option Nat := none
  name : Option String := none
  cmd : Option String := none
  username : Option String := none
  uid : Option Nat := none
  cpu : Option ℚ := none
  memory : Option ℚ := none

/-- JS `p.username || p.uid || ''` (a numeric uid is rendered when the
username is falsy). -/
def userFallback (username : Option String) (uid : Option Nat) : String :=
  match username with
  | some s => if s ≠ "" then s else
      (match uid with
       | some n => if n ≠ 0 then natStr n else ""
       | none => "")
  | none =>
      match uid with
      | some n => if n ≠ 0 then natStr n else ""
      | none => ""

/-- `listProcesses` from src/src/proc.ts lines 6-16.  The body has no
try/catch, so a `psList` rejection propagates unchanged. -/
def listProcesses (totalMem : ℚ) (psRes : Except String (List PsRawProc)) :
    Except String (List ProcInfo) :=
  match psRes with
  | .error e => .error e
  | .ok all => .ok (all.map fun p =>
      let memPct : ℚ := match p.memory with
        | some m => if m ≠ 0 then m / totalMem * 100 else 0
        | none => 0
      { pid := p.pid, ppid := p.ppid, name := p.name, cmd := p.cmd,
        user := some (userFallback p.username p.uid),
        cpu := some (p.cpu.getD 0), mem := some memPct,
        execPath := extractExecPath (orEmpty p.cmd) })

/-- JS `parseInt`: skip leading whitespace, optional sign, then leading
digits; `none` models `NaN`. -/
def jsParseInt (s : String) : Option Int :=
  let l := s.data.dropWhile isWs
  let signed : Int × List Char :=
    match l with
    | '-' :: r => (-1, r)
    | '+' :: r => (1, r)
    | _ => (1, l)
  let digits := signed.2.takeWhile Char.isDigit
  if digits.isEmpty then none
  else some (signed.1 * (digits.foldl (fun a c => 10 * a + (c.toNat - 48)) 0 : Nat))

/-- One step of JS `line.split(/\s+/)` built by `List.foldr`: the Bool
records whether the character to the right was whitespace, so runs
collapse while leading/trailing runs still produce an empty token. -/
def wsSplitStep (c : Char) : List (List Char) × Bool → List (List Char) × Bool
  | (toks, lastWs) =>
    if isWs c then
      if lastWs then (toks, true) else ([] :: toks, true)
    else
      match toks with
      | h :: t => ((c :: h) :: t, false)
      | [] => ([[c]], false)

/-- JS `s.split(/\s+/)` on a character list. -/
def wsSplit (l : List Char) : List (List Char) :=
  (l.foldr wsSplitStep ([[]], false)).1

/-- Process one lsof output line against the per-pid map
(conns.ts lines 22-52). -/
def processLsofLine (m : List (Int × ConnSummary)) (line : String) :
    List (Int × ConnSummary) :=
  let parts := wsSplit line.data
  if parts.length < 9 then m
  else
    let p1 := (parts.get? 1).getD []
    match jsParseInt (if p1 = [] then "0" else ⟨p1⟩) with
    | none => m
    | some pid =>
      let name : String := ⟨(parts.getLast?).getD []⟩
      if name = "" then m
      else
        let m := if (m.find? (fun kv => kv.1 == pid)).isSome then m
                 else m ++ [(pid, ⟨0, 0, []⟩)]
        let upd := fun (f : ConnSummary → ConnSummary) =>
          m.map (fun kv => if kv.1 = pid then (kv.1, f kv.2) else kv)
        if strContains name "LISTEN" then
          upd (fun s => { s with listen := s.listen + 1 })
        else if strContains name "->" then
          upd (fun s =>
            let s := { s with outbound := s.outbound + 1 }
            let remote := ((name.splitOn "->").get? 1).getD ""
            if remote ≠ "" ∧ s.sampleRemotes.length < 10 then
              if s.sampleRemotes.contains remote then s
              else { s with sampleRemotes := s.sampleRemotes ++ [remote] }
            else s)
        else if strContains name ":" ∧ !strContains name "LISTEN" then
          upd (fun s => { s with outbound := s.outbound + 1 })
        else m

/-- `getConnectionSummary` from src/src/conns.ts: the whole body is in a
try/catch, so any lsof failure yields the empty map. -/
def getConnectionSummary (lsofRes : Except String String) :
    List (Int × ConnSummary) :=
  match lsofRes with
  | .error _ => []
  | .ok stdout => ((stdout.splitOn "\n").drop 1).foldl processLsofLine []

/-- JS `Map.prototype.set`: update in place, else append. -/
def launchMapSet (m : List (Int × String)) (k : Int) (v : String) :
    List (Int × String) :=
  if (m.find? (fun kv => kv.1 == k)).isSome then
    m.map (fun kv => if kv.1 = k then (kv.1, v) else kv)
  else m ++ [(k, v)]

/-- Process one `launchctl list` line (launchctl.ts lines 14-24). -/
def processLaunchctlLine (m : List (Int × String)) (line : String) :
    List (Int × String) :=
  let parts := line.splitOn "\t"
  if parts.length < 3 then m
  else
    match jsParseInt ((parts.get? 0).getD "") with
    | none => m
    | some pid =>
      if pid = -1 then m
      else
        let label := (parts.get? 2).getD ""
        if label ≠ "" then launchMapSet m pid label else m

/-- `collectLaunchDaemons` from src/src/launchctl.ts: the whole body is
in a try/catch, so any launchctl failure yields the empty map. -/
def collectLaunchDaemons (res : Except String String) : List (Int × String) :=
  match res with
  | .error _ => []
  | .ok stdout => ((stdout.splitOn "\n").drop 1).foldl processLaunchctlLine []

/-- The `Promise.all` join of the three collectors inside the
`try`/`catch` of `scanProcesses` (server/monitor.ts lines 317-334):
`getConnectionSummary` and `collectLaunchDaemons` are total, but a
`listProcesses` rejection rejects the join and the catch aborts the scan
(`none`: the store is not updated). -/
def scanCollect (procsRes : Except String (List ProcInfo))
    (conns : List (Int × ConnSummary)) (launch : List (Int × String)) :
    Option (List ProcInfo × List (Int × ConnSummary) × List (Int × String)) :=
  match procsRes with
  | .error _ => none
  | .ok procs => some (procs, conns, launch)

/-- `getCodeSignInfo` from src/src/codesign.ts lines 7-11: the guard
ahead of any subprocess work.  The two `codesign` invocations and output
parsing (lines 13-74, which always produce a non-null record once
reached) are abstracted as the oracle `check`. -/
def getCodeSignInfo (check : String → CodesignInfo) (pathOrCmd : String) :
    Option CodesignInfo :=
  if pathOrCmd = "" then none
  else
    let execPath := headSpaceToken pathOrCmd
    if execPath = "" then none
    else if !jsStartsWith execPath "/" then none
    else some (check execPath)

/-- The path `getCodeSignInfo` hands to the `codesign` subprocess;
`none` when the guard short-circuits and no signature check runs. -/
def getCodeSignInfoInvokes (pathOrCmd : String) : Option String :=
  if pathOrCmd = "" then none
  else
    let execPath := headSpaceToken pathOrCmd
    if execPath = "" then none
    else if !jsStartsWith execPath "/" then none
    else some execPath

/-! ### Codesign worker pool (server/monitor.ts lines 33-214) and the
orchestrator's signature path (lines 386-397).

The pool's mutable fields become a state record; the task-queue dynamics
degenerate for the claim at hand (no live worker ever posts a reply, so
a queued task can only be finished by its 5-second timeout). -/

/-- Mutable state of `CodesignWorkerPool`. -/
structure PoolState where
  initialized : Bool
  isShuttingDown : Bool
  availableWorkers : Nat
  liveWorkers : Nat

/-- `CodesignWorkerPool.isReady` (lines 211-213). -/
def CodesignWorkerPool.isReady (st : PoolState) : Bool :=
  st.initialized && !st.isShuttingDown

/-- How a call to `CodesignWorkerPool.getCodeSignInfo` (lines 138-164)
ends. -/
inductive PoolCallOutcome
  | failFast
  | timeoutAfter (ms : Nat)
  | dispatched
deriving DecidableEq

/-- `CodesignWorkerPool.getCodeSignInfo`: it throws synchronously only
when the pool is uninitialized or shutting down; otherwise the task is
queued, and with zero live workers nothing ever serves the queue, so the
5000 ms timer (lines 151-162) rejects the promise. -/
def poolGetCodeSignInfo (st : PoolState) : PoolCallOutcome :=
  if !st.initialized || st.isShuttingDown then .failFast
  else if st.liveWorkers = 0 then .timeoutAfter 5000
  else .dispatched

/-- The worker `error` handler (lines 86-93): the crashed worker is
removed from `availableWorkers`; `initialized` is left untouched. -/
def workerCrash (st : PoolState) : PoolState :=
  { st with availableWorkers := st.availableWorkers - 1,
            liveWorkers := st.liveWorkers - 1 }

/-- Pool state right after a successful `initialize()` with the default
pool size of 2 (lines 43-136 set `initialized = true`). -/
def initializedPool : PoolState :=
  { initialized := true, isShuttingDown := false,
    availableWorkers := 2, liveWorkers := 2 }

/-- Which route `scanProcesses` takes for a signature request. -/
inductive SigFetchPath
  | viaPool
  | inThread
deriving DecidableEq

/-- The orchestrator's branch `workerPool && workerPool.isReady()`
(monitor.ts lines 386-397). -/
def scanSigFetchPath (poolExists : Bool) (st : PoolState) : SigFetchPath :=
  if poolExists && CodesignWorkerPool.isReady st then .viaPool else .inThread

/-- The `csig` value the scan ends up with: pool failures and timeouts
are caught and degrade to `none`; only the in-thread branch ever calls
`getCodeSignInfo` on the main thread. -/
def scanSigResult (poolExists : Bool) (st : PoolState)
    (workerResult inThreadResult : Option CodesignInfo) : Option CodesignInfo :=
  match scanSigFetchPath poolExists st with
  | .viaPool =>
    match poolGetCodeSignInfo st with
    | .failFast => none
    | .timeoutAfter _ => none
    | .dispatched => workerResult
  | .inThread => inThreadResult

/-! ### Concrete classifier inputs used by the claim theorems -/

/-- A keylogger-named process with 60 outbound connections and nothing
else set. -/
def c1input : SecInput :=
  { proc := { pid := 101, name := some "keylog" },
    conn := some { outbound := 60, listen := 0, sampleRemotes := [] } }

/-- The spec's trusted-downgrade scenario: `curl https://update.apple.com`
signed and valid with team identifier `Apple Inc.`, one outbound
connection, no other triggering attributes. -/
def c2input : SecInput :=
  { proc := { pid := 7, name := some "curl",
              cmd := some "curl https://update.apple.com" },
    conn := some { outbound := 1, listen := 0, sampleRemotes := [] },
    csig := some { teamIdentifier := some "Apple Inc.", signed := true,
                   valid := some true } }

/-- A keylogger-named process with no connection summary at all. -/
def c3input : SecInput := { proc := { pid := 3, name := some "keylog" } }

/-- C1: level monotonicity fails in the code.  On a process named
`keylog` with 60 outbound connections the keylogger rule sets the running
level to CRITICAL, and the later excessive-outbound rule (security.ts
lines 121-124) unconditionally assigns MED, lowering it; the final level
is HIGH, not CRITICAL.  Only the trusted-binary rule is allowed to lower
a level according to the claim. -/
theorem excessive_outbound_lowers_critical_level :
    (stateBeforeExcessiveOutbound c1input).level = .CRITICAL ∧
    (ruleExcessiveOutbound c1input (stateBeforeExcessiveOutbound c1input)).level = .MED ∧
    levelRank ((ruleExcessiveOutbound c1input (stateBeforeExcessiveOutbound c1input)).level) <
      levelRank ((stateBeforeExcessiveOutbound c1input).level) ∧
    (analyzeSecurity c1input).level = .HIGH := by decide

/-- C2 counterexample: on the spec's trusted-downgrade input the
classifier does NOT append `trusted-binary` (the claim requires it):
`checkBinaryTrust` compares the team identifier against reverse-DNS
fragments such as `com.apple`, which `Apple Inc.` does not contain. -/
theorem trusted_team_display_name_not_recognized :
    ((analyzeSecurity c2input).reasons.contains "trusted-binary") = false ∧
    (analyzeSecurity c2input).level = .LOW := by decide

/-- C2 amended: the scenario yields level LOW with reasons exactly
`[unknown-signature]`; `data-exfiltration` is indeed suppressed (the
team is in `TRUSTED_TEAMS`), but the signature-trust rule classifies the
signature as `unknown`/`unverified` rather than trusted, so no
`trusted-binary` reason and no trusted downgrade occur. -/
theorem trusted_scenario_yields_unknown_signature :
    analyzeSecurity c2input = ⟨.LOW, ["unknown-signature"]⟩ ∧
    ((analyzeSecurity c2input).reasons.contains "data-exfiltration") = false ∧
    checkBinaryTrust c2input.csig = ⟨.unknown, ["unverified"]⟩ := by decide

/-- C3: the reasons list is not duplicate-free.  A process named
`keylog` with no connection summary gets `keylogger-pattern` pushed both
by the first keylogger block (security.ts lines 22-30) and again by the
second keylogger loop (lines 126-136). -/
theorem keylogger_pattern_reason_duplicated :
    (analyzeSecurity c3input).reasons = ["keylogger-pattern", "keylogger-pattern"] ∧
    (analyzeSecurity c3input).reasons.count "keylogger-pattern" = 2 := by decide

/-- C4 counterexample: `listProcesses` does not return an empty container
when its underlying command fails — it has no try/catch, so the rejection
propagates, and the `Promise.all` join makes the whole scan abort even
though the other two collectors returned (empty) data. -/
theorem listProcesses_propagates_collector_error :
    listProcesses 100 (.error "psList timeout") = .error "psList timeout" ∧
    scanCollect (listProcesses 100 (.error "psList timeout")) [] [] = none :=
  ⟨rfl, rfl⟩

/-- C4 amended: `getConnectionSummary` and `collectLaunchDaemons` return
empty containers when their commands fail, but `listProcesses` propagates
its error, and the scan is then aborted (store untouched) regardless of
what the other collectors returned. -/
theorem collectors_error_policy (e : String) (tm : ℚ)
    (conns : List (Int × ConnSummary)) (launch : List (Int × String)) :
    getConnectionSummary (.error e) = [] ∧
    collectLaunchDaemons (.error e) = [] ∧
    listProcesses tm (.error e) = .error e ∧
    scanCollect (.error e) conns launch = none :=
  ⟨rfl, rfl, rfl, rfl⟩

/-- C5 counterexample: after both workers of an initialized pool crash,
`isReady` is still true (worker crashes never clear `initialized`), the
orchestrator still routes the request to the pool, and the call ends in
the 5-second queue timeout instead of failing fast. -/
theorem dead_pool_not_fail_fast :
    (workerCrash (workerCrash initializedPool)).liveWorkers = 0 ∧
    CodesignWorkerPool.isReady (workerCrash (workerCrash initializedPool)) = true ∧
    scanSigFetchPath true (workerCrash (workerCrash initializedPool)) = .viaPool ∧
    poolGetCodeSignInfo (workerCrash (workerCrash initializedPool)) = .timeoutAfter 5000 ∧
    poolGetCodeSignInfo (workerCrash (workerCrash initializedPool)) ≠ .failFast := by
  decide

/-- C5 amended: when the pool initialized, is not shutting down, and has
zero live workers, a signature request is routed to the pool, waits out
the 5000 ms pool-side timeout (the caller's 2000 ms race loses even
earlier), and the scan's `csig` ends up `none` — the in-thread result is
never consulted for that request. -/
theorem dead_pool_times_out_without_fallback (st : PoolState)
    (hInit : st.initialized = true) (hShut : st.isShuttingDown = false)
    (hLive : st.liveWorkers = 0) (w it : Option CodesignInfo) :
    poolGetCodeSignInfo st = .timeoutAfter 5000 ∧
    scanSigFetchPath true st = .viaPool ∧
    scanSigResult true st w it = none := by
  simp [poolGetCodeSignInfo, scanSigFetchPath, CodesignWorkerPool.isReady,
        scanSigResult, hInit, hShut, hLive]

/-- C5 witness: the amended theorem applied to the doubly-crashed
initialized pool. -/
theorem dead_pool_times_out_without_fallback_witness :
    poolGetCodeSignInfo (workerCrash (workerCrash initializedPool)) = .timeoutAfter 5000 ∧
    scanSigFetchPath true (workerCrash (workerCrash initializedPool)) = .viaPool ∧
    scanSigResult true (workerCrash (workerCrash initializedPool))
      (some { signed := true }) (some { signed := true }) = none :=
  dead_pool_times_out_without_fallback
    (workerCrash (workerCrash initializedPool)) rfl rfl rfl
    (some { signed := true }) (some { signed := true })

/-- Shape of a successful `extractExecPath`: the returned token is
absolute or ends in `.app`. -/
theorem extractExecPath_abs_or_app {cmd p : String}
    (h : extractExecPath cmd = some p) :
    jsStartsWith p "/" = true ∨ jsEndsWith p ".app" = true := by
  unfold extractExecPath at h
  dsimp only at h
  split_ifs at h with h0 h1 h2 h3
  · exact Or.inl (Option.some.inj h ▸ h2)
  · exact Or.inr (Option.some.inj h ▸ h3)

/-- Taking the first space-free token cannot create a leading slash. -/
theorem slash_takeWhile_aux (l : List Char)
    (h : (['/'] : List Char).isPrefixOf l = false) :
    (['/'] : List Char).isPrefixOf (l.takeWhile (fun c => c ≠ ' ')) = false := by
  cases l with
  | nil => rfl
  | cons c cs =>
    by_cases hc : c = ' '
    · subst hc
      rw [List.takeWhile_cons_of_neg (by simp)]
      rfl
    · rw [List.takeWhile_cons_of_pos (by simp [hc])]
      simp [List.isPrefixOf_cons₂] at h ⊢
      exact h

/-- C10: any input whose first space-delimited token is not absolute is
rejected by `getCodeSignInfo` before any `codesign` subprocess runs; in
particular a relative `.app` token accepted by `extractExecPath` can
never receive a signature. -/
theorem relative_token_never_codesigned :
    (∀ (check : String → CodesignInfo) (s : String),
        jsStartsWith (headSpaceToken s) "/" = false →
        getCodeSignInfo check s = none ∧ getCodeSignInfoInvokes s = none) ∧
    (∀ (check : String → CodesignInfo) (cmd p : String),
        extractExecPath cmd = some p → jsStartsWith p "/" = false →
        getCodeSignInfo check p = none) := by
  constructor
  · intro check s h
    unfold getCodeSignInfo getCodeSignInfoInvokes
    dsimp only
    split_ifs with h0 h1 h2
    · exact ⟨rfl, rfl⟩
    · exact ⟨rfl, rfl⟩
    · exact ⟨rfl, rfl⟩
    · exact absurd h (by simpa using h2)
  · intro check cmd p hext hns
    have habs := extractExecPath_abs_or_app hext
    have happ : jsEndsWith p ".app" = true := by
      rcases habs with h | h
      · rw [h] at hns; cases hns
      · exact h
    have htok : jsStartsWith (headSpaceToken p) "/" = false := by
      unfold jsStartsWith at hns ⊢
      unfold headSpaceToken
      exact slash_takeWhile_aux p.data hns
    unfold getCodeSignInfo
    dsimp only
    split_ifs with h0 h1 h2
    · rfl
    · rfl
    · rfl
    · exact absurd htok (by simpa using h2)

/-- C10 witness: the token `Foo.app` (relative, accepted by
`extractExecPath` from the command `"Foo.app --flag"`) never reaches a
signature check. -/
theorem relative_token_never_codesigned_witness :
    (getCodeSignInfo (fun _ => { signed := true }) "Foo.app" = none ∧
      getCodeSignInfoInvokes "Foo.app" = none) ∧
    extractExecPath "Foo.app --flag" = some "Foo.app" ∧
    getCodeSignInfo (fun _ => { signed := true }) "Foo.app" = none :=
  ⟨relative_token_never_codesigned.1 (fun _ => { signed := true }) "Foo.app" (by decide),
   by decide,
   relative_token_never_codesigned.2 (fun _ => { signed := true })
     "Foo.app --flag" "Foo.app" (by decide) (by decide)⟩

/-! ### Wire format (src/shared/types.ts) and the adaptive scan interval
(server/monitor.ts lines 240-247 and 498-545) -/

/-- `ConnectionSummary` of the wire format. -/
structure ConnectionSummary where
  outbound : Nat := 0
  listen : Nat := 0
  remotes : List String := []
deriving DecidableEq

/-- `CodesignData` of the wire format. -/
structure CodesignData where
  signed : Bool := false
  valid : Bool := false
  teamId : Option String := none
  notarized : Option Bool := none
  appStore : Option Bool := none
deriving DecidableEq

/-- `ProcessWireFormat`: one row as pushed to subscribers. -/
structure ProcessWireFormat where
  pid : Nat
  ppid : Option Nat := none
  name : String := ""
  cmd : String := ""
  user : String := ""
  cpu : ℚ := 0
  mem : ℚ := 0
  execPath : Option String := none
  connections : ConnectionSummary := {}
  level : SuspicionLevel := .LOW
  reasons : List String := []
  launchd : Option String := none
  codesign : Option CodesignData := none
  parent : Option String := none
deriving DecidableEq

/-- `SCAN_INTERVAL.CRITICAL`. -/
def SCAN_INTERVAL_CRITICAL : Nat := 5000

/-- `SCAN_INTERVAL.HIGH`. -/
def SCAN_INTERVAL_HIGH : Nat := 7000

/-- `SCAN_INTERVAL.NORMAL`. -/
def SCAN_INTERVAL_NORMAL : Nat := 10000

/-- `SCAN_INTERVAL.IDLE`. -/
def SCAN_INTERVAL_IDLE : Nat := 15000

/-- `SCAN_INTERVAL.MIN`. -/
def SCAN_INTERVAL_MIN : Nat := 5000

/-- `SCAN_INTERVAL.MAX`. -/
def SCAN_INTERVAL_MAX : Nat := 15000

/-- `calculateNextScanInterval` (monitor.ts lines 498-545): count threats
per level over the committed rows, pick the interval by priority, and
clamp it to the safety bounds. -/
def calculateNextScanInterval (processes : List ProcessWireFormat)
    (totalProcessCount : Nat) : Nat :=
  let critical := processes.countP (fun p => p.level = .CRITICAL)
  let high := processes.countP (fun p => p.level = .HIGH)
  let med := processes.countP (fun p => p.level = .MED)
  let interval :=
    if critical > 0 then SCAN_INTERVAL_CRITICAL
    else if high > 0 then SCAN_INTERVAL_HIGH
    else if totalProcessCount < 100 ∧ med = 0 then SCAN_INTERVAL_IDLE
    else SCAN_INTERVAL_NORMAL
  max SCAN_INTERVAL_MIN (min SCAN_INTERVAL_MAX interval)

/-- C6: the next scan interval is 5 s when some row is CRITICAL, else
7 s when some row is HIGH, else 15 s when the total process count is
below 100 and no row is MED, HIGH or CRITICAL, else 10 s; and it always
lies within [5 s, 15 s]. -/
theorem next_scan_interval_spec (rows : List ProcessWireFormat) (total : Nat) :
    calculateNextScanInterval rows total =
      (if rows.any (fun p => p.level = .CRITICAL) then 5000
       else if rows.any (fun p => p.level = .HIGH) then 7000
       else if total < 100 ∧ rows.all (fun p =>
              ¬(p.level = .MED ∨ p.level = .HIGH ∨ p.level = .CRITICAL)) then 15000
       else 10000) ∧
    5000 ≤ calculateNextScanInterval rows total ∧
    calculateNextScanInterval rows total ≤ 15000 := by
  have hCiff : (0 < rows.countP (fun p => p.level = .CRITICAL)) ↔
      ((rows.any fun p => p.level = .CRITICAL) = true) := by
    rw [List.countP_pos_iff, List.any_eq_true]
  have hHiff : (0 < rows.countP (fun p => p.level = .HIGH)) ↔
      ((rows.any fun p => p.level = .HIGH) = true) := by
    rw [List.countP_pos_iff, List.any_eq_true]
  have hMiff : (rows.countP (fun p => p.level = .MED) = 0) ↔
      (∀ p ∈ rows, ¬(p.level = .MED)) := by
    rw [List.countP_eq_zero]
    simp
  refine ⟨?_, ?_, ?_⟩
  · unfold calculateNextScanInterval
    dsimp only
    by_cases hc : (rows.any fun p => p.level = .CRITICAL) = true
    · rw [if_pos (hCiff.mpr hc), if_pos hc]
      decide
    · rw [if_neg (fun h => hc (hCiff.mp h)), if_neg hc]
      by_cases hh : (rows.any fun p => p.level = .HIGH) = true
      · rw [if_pos (hHiff.mpr hh), if_pos hh]
        decide
      · rw [if_neg (fun h => hh (hHiff.mp h)), if_neg hh]
        by_cases hi : total < 100 ∧ (rows.all fun p =>
            ¬(p.level = .MED ∨ p.level = .HIGH ∨ p.level = .CRITICAL)) = true
        · have hcode : total < 100 ∧ rows.countP (fun p => p.level = .MED) = 0 := by
            refine ⟨hi.1, hMiff.mpr ?_⟩
            intro p hp
            have := List.all_eq_true.mp hi.2 p hp
            simp only [decide_eq_true_eq] at this
            exact fun hm => this (Or.inl hm)
          rw [if_pos hcode, if_pos hi]
          decide
        · have hcode : ¬(total < 100 ∧ rows.countP (fun p => p.level = .MED) = 0) := by
            rintro ⟨hlt, hm0⟩
            apply hi
            refine ⟨hlt, ?_⟩
            rw [List.all_eq_true]
            intro p hp
            simp only [decide_eq_true_eq]
            rintro (h | h | h)
            · exact (hMiff.mp hm0 p hp) h
            · exact hh (List.any_eq_true.mpr ⟨p, hp, by simp [h]⟩)
            · exact hc (List.any_eq_true.mpr ⟨p, hp, by simp [h]⟩)
          rw [if_neg hcode, if_neg hi]
          decide
  · unfold calculateNextScanInterval SCAN_INTERVAL_MIN SCAN_INTERVAL_MAX
    dsimp only
    omega
  · unfold calculateNextScanInterval SCAN_INTERVAL_MIN SCAN_INTERVAL_MAX
    dsimp only
    omega

/-! ### Delta computation (server/websocket.ts lines 25-53) -/

/-- Lookup of a row by pid: the JS code builds a `Map(processes.map(p =>
[p.pid, p]))`; over pid-unique sequences `find?` is exactly that map's
`get`. -/
def findByPid (ps : List ProcessWireFormat) (pid : Nat) :
    Option ProcessWireFormat :=
  ps.find? (fun p => p.pid = pid)

/-- The `Delta` wire shape. -/
structure DeltaMsg where
  added : List ProcessWireFormat
  updated : List ProcessWireFormat
  removed : List Nat
deriving DecidableEq

/-- `computeDelta`: added = new rows whose pid is absent from old;
updated = rows present in both whose serialized form changed
(`JSON.stringify` inequality of two rows built by the same literal is
structural record inequality); removed = old pids absent from new. -/
def computeDelta (oldProcesses newProcesses : List ProcessWireFormat) : DeltaMsg :=
  { added := newProcesses.filter (fun p => (findByPid oldProcesses p.pid).isNone),
    updated := newProcesses.filter (fun p =>
      match findByPid oldProcesses p.pid with
      | some oldProc => decide (oldProc ≠ p)
      | none => false),
    removed := (oldProcesses.filter
      (fun p => (findByPid newProcesses p.pid).isNone)).map (·.pid) }

/-- Applying a delta to the old sequence, exactly as the claim words it:
drop rows whose pid is in `removed`, replace rows whose pid appears in
`updated`, then append `added`. -/
def applyDelta (oldProcesses : List ProcessWireFormat) (d : DeltaMsg) :
    List ProcessWireFormat :=
  ((oldProcesses.filter (fun p => decide (p.pid ∉ d.removed))).map
    (fun p => (findByPid d.updated p.pid).getD p)) ++ d.added

theorem findByPid_eq_none {ps : List ProcessWireFormat} {k : Nat} :
    findByPid ps k = none ↔ ∀ p ∈ ps, p.pid ≠ k := by
  simp [findByPid, List.find?_eq_none]

theorem findByPid_some {ps : List ProcessWireFormat} {k : Nat}
    {p : ProcessWireFormat} (h : findByPid ps k = some p) :
    p ∈ ps ∧ p.pid = k :=
  ⟨List.mem_of_find?_eq_some h, by simpa using List.find?_some h⟩

theorem findByPid_of_mem {ps : List ProcessWireFormat} {k : Nat}
    {p : ProcessWireFormat} (hnd : (ps.map (·.pid)).Nodup)
    (hp : p ∈ ps) (hk : p.pid = k) : findByPid ps k = some p := by
  induction ps with
  | nil => cases hp
  | cons q rest ih =>
    rw [List.map_cons, List.nodup_cons] at hnd
    rcases List.mem_cons.mp hp with rfl | hmem
    · unfold findByPid
      rw [List.find?_cons_of_pos _ (by simpa using hk)]
    · by_cases hq : q.pid = k
      · exact absurd (List.mem_map.mpr ⟨p, hmem, hk.trans hq.symm⟩) hnd.1
      · unfold findByPid
        rw [List.find?_cons_of_neg _ (by simpa using hq)]
        exact ih hnd.2 hmem

theorem pid_unique {ps : List ProcessWireFormat}
    (hnd : (ps.map (·.pid)).Nodup) {p q : ProcessWireFormat}
    (hp : p ∈ ps) (hq : q ∈ ps) (h : p.pid = q.pid) : p = q := by
  have h1 := findByPid_of_mem hnd hp rfl
  have h2 := findByPid_of_mem hnd hq h.symm
  rw [h1] at h2
  exact Option.some.inj h2

theorem mem_added_computeDelta {oldP newP : List ProcessWireFormat}
    {x : ProcessWireFormat} :
    x ∈ (computeDelta oldP newP).added ↔
      x ∈ newP ∧ findByPid oldP x.pid = none := by
  simp [computeDelta, List.mem_filter, Option.isNone_iff_eq_none]

theorem mem_updated_computeDelta {oldP newP : List ProcessWireFormat}
    {x : ProcessWireFormat} :
    x ∈ (computeDelta oldP newP).updated ↔
      x ∈ newP ∧ ∃ q, findByPid oldP x.pid = some q ∧ q ≠ x := by
  simp only [computeDelta, List.mem_filter]
  constructor
  · rintro ⟨hmem, hcond⟩
    cases hfo : findByPid oldP x.pid with
    | none => rw [hfo] at hcond; cases hcond
    | some q =>
      rw [hfo] at hcond
      exact ⟨hmem, q, rfl, by simpa using hcond⟩
  · rintro ⟨hmem, q, hq, hne⟩
    refine ⟨hmem, ?_⟩
    rw [hq]
    simpa using hne

theorem mem_removed_computeDelta {oldP newP : List ProcessWireFormat}
    {i : Nat} :
    i ∈ (computeDelta oldP newP).removed ↔
      ∃ p ∈ oldP, p.pid = i ∧ findByPid newP i = none := by
  simp only [computeDelta, List.mem_map, List.mem_filter,
    Option.isNone_iff_eq_none]
  constructor
  · rintro ⟨p, ⟨hp, hn⟩, rfl⟩
    exact ⟨p, hp, rfl, hn⟩
  · rintro ⟨p, hp, rfl, hn⟩
    exact ⟨p, ⟨hp, hn⟩, rfl⟩

theorem applyDelta_replace_pid (d : DeltaMsg) (p : ProcessWireFormat) :
    ((findByPid d.updated p.pid).getD p).pid = p.pid := by
  cases hf : findByPid d.updated p.pid with
  | none => rfl
  | some u => simpa using (findByPid_some hf).2

theorem mem_applyDelta {oldP : List ProcessWireFormat} {d : DeltaMsg}
    {x : ProcessWireFormat} :
    x ∈ applyDelta oldP d ↔
      ((∃ p, p ∈ oldP ∧ p.pid ∉ d.removed ∧
          x = (findByPid d.updated p.pid).getD p) ∨ x ∈ d.added) := by
  simp only [applyDelta, List.mem_append, List.mem_map, List.mem_filter,
    decide_eq_true_eq]
  constructor
  · rintro (⟨p, ⟨hp, hrem⟩, rfl⟩ | hadd)
    · exact Or.inl ⟨p, hp, hrem, rfl⟩
    · exact Or.inr hadd
  · rintro (⟨p, hp, hrem, rfl⟩ | hadd)
    · exact Or.inl ⟨p, ⟨hp, hrem⟩, rfl⟩
    · exact Or.inr hadd

theorem applyDelta_pids_nodup {oldP newP : List ProcessWireFormat}
    (hold : (oldP.map (·.pid)).Nodup) (hnew : (newP.map (·.pid)).Nodup) :
    ((applyDelta oldP (computeDelta oldP newP)).map (·.pid)).Nodup := by
  have hmapmap :
      ((oldP.filter (fun p => decide (p.pid ∉ (computeDelta oldP newP).removed))).map
        (fun p => (findByPid (computeDelta oldP newP).updated p.pid).getD p)).map
          (·.pid) =
      (oldP.filter (fun p => decide (p.pid ∉ (computeDelta oldP newP).removed))).map
        (·.pid) := by
    rw [List.map_map]
    exact List.map_congr_left (fun p _ => applyDelta_replace_pid _ p)
  rw [applyDelta, List.map_append, hmapmap]
  refine List.nodup_append.mpr ⟨?_, ?_, ?_⟩
  · exact ((oldP.filter_sublist).map _).nodup hold
  · have : (computeDelta oldP newP).added.Sublist newP := newP.filter_sublist
    exact (this.map _).nodup hnew
  · intro i hi₁ hi₂
    rcases List.mem_map.mp hi₁ with ⟨p, hpf, rfl⟩
    rcases List.mem_map.mp hi₂ with ⟨x, hxa, hxp⟩
    have hxnone := (mem_added_computeDelta.mp hxa).2
    rw [hxp] at hxnone
    exact findByPid_eq_none.mp hxnone p (List.mem_of_mem_filter hpf) rfl

/-- C7: applying `computeDelta old new` to `old` — removing the pids in
`removed`, replacing the records of pids in `updated`, adding the records
in `added` — yields exactly `new` as a pid-keyed map, whenever both
sequences have unique pids. -/
theorem computeDelta_roundtrip (oldP newP : List ProcessWireFormat)
    (hold : (oldP.map (·.pid)).Nodup) (hnew : (newP.map (·.pid)).Nodup)
    (k : Nat) :
    findByPid (applyDelta oldP (computeDelta oldP newP)) k = findByPid newP k := by
  have hLnd := applyDelta_pids_nodup hold hnew
  cases hq : findByPid newP k with
  | some q =>
    have hqn := findByPid_some hq
    have hqL : q ∈ applyDelta oldP (computeDelta oldP newP) := by
      cases hfo : findByPid oldP k with
      | some p₀ =>
        have hp₀ := findByPid_some hfo
        have hnotrem : p₀.pid ∉ (computeDelta oldP newP).removed := by
          rw [hp₀.2]
          intro hin
          rcases mem_removed_computeDelta.mp hin with ⟨p, _, _, hnone⟩
          rw [hq] at hnone
          cases hnone
        have hval : (findByPid (computeDelta oldP newP).updated p₀.pid).getD p₀ = q := by
          rw [hp₀.2]
          cases hu : findByPid (computeDelta oldP newP).updated k with
          | some u =>
            have husome := findByPid_some hu
            have humem := (mem_updated_computeDelta.mp husome.1).1
            have : u = q := pid_unique hnew humem hqn.1 (husome.2.trans hqn.2.symm)
            simpa using this
          | none =>
            have hq_not_upd : q ∉ (computeDelta oldP newP).updated :=
              fun hin => (findByPid_eq_none.mp hu q hin) hqn.2
            have hpq : p₀ = q := by
              by_contra hne
              refine hq_not_upd (mem_updated_computeDelta.mpr ⟨hqn.1, p₀, ?_, hne⟩)
              rw [hqn.2]
              exact hfo
            simpa using hpq
        exact mem_applyDelta.mpr (Or.inl ⟨p₀, hp₀.1, hnotrem, hval.symm⟩)
      | none =>
        refine mem_applyDelta.mpr (Or.inr (mem_added_computeDelta.mpr ⟨hqn.1, ?_⟩))
        rw [hqn.2]
        exact hfo
    exact findByPid_of_mem hLnd hqL hqn.2
  | none =>
    have hnone := findByPid_eq_none.mp hq
    rw [findByPid_eq_none]
    intro x hxL
    rcases mem_applyDelta.mp hxL with ⟨p, hpold, hnotrem, rfl⟩ | hxadd
    · rw [applyDelta_replace_pid]
      intro hpk
      exact hnotrem (mem_removed_computeDelta.mpr
        ⟨p, hpold, rfl, by rw [hpk]; exact hq⟩)
    · exact hnone x (mem_added_computeDelta.mp hxadd).1

/-- C7 witness: the spec's delta scenario `[A:LOW, B:MED] → [B:HIGH,
C:LOW]`, checked at pid 2. -/
theorem computeDelta_roundtrip_witness :
    findByPid
      (applyDelta
        [{ pid := 1, name := "A", level := .LOW }, { pid := 2, name := "B", level := .MED }]
        (computeDelta
          [{ pid := 1, name := "A", level := .LOW }, { pid := 2, name := "B", level := .MED }]
          [{ pid := 2, name := "B", level := .HIGH }, { pid := 3, name := "C", level := .LOW }]))
      2 =
    findByPid
      [{ pid := 2, name := "B", level := .HIGH }, { pid := 3, name := "C", level := .LOW }]
      2 :=
  computeDelta_roundtrip
    [{ pid := 1, name := "A", level := .LOW }, { pid := 2, name := "B", level := .MED }]
    [{ pid := 2, name := "B", level := .HIGH }, { pid := 3, name := "C", level := .LOW }]
    (by decide) (by decide) 2

/-! ### Properties of the decimal formatter -/

theorem digitChar_isDigit : ∀ k, k < 10 → (Nat.digitChar k).isDigit = true := by
  decide

theorem digitChar_val : ∀ k, k < 10 → (Nat.digitChar k).toNat - 48 = k := by
  decide

theorem natCharsAux_fuel_indep (n : Nat) :
    ∀ f₁ f₂ : Nat, n < f₁ → n < f₂ → natCharsAux f₁ n = natCharsAux f₂ n := by
  induction n using Nat.strong_induction_on with
  | _ n ih =>
    intro f₁ f₂ h₁ h₂
    cases f₁ with
    | zero => omega
    | succ g₁ =>
      cases f₂ with
      | zero => omega
      | succ g₂ =>
        by_cases h10 : n < 10
        · simp [natCharsAux, h10]
        · simp only [natCharsAux, if_neg h10]
          have hdiv : n / 10 < n := Nat.div_lt_self (by omega) (by omega)
          rw [ih (n / 10) hdiv g₁ g₂ (by omega) (by omega)]

theorem natChars_eq (n : Nat) :
    natChars n = if n < 10 then [Nat.digitChar n]
                 else natChars (n / 10) ++ [Nat.digitChar (n % 10)] := by
  have hstep : natCharsAux (n + 1) n =
      if n < 10 then [Nat.digitChar n]
      else natCharsAux n (n / 10) ++ [Nat.digitChar (n % 10)] := rfl
  by_cases h10 : n < 10
  · rw [natChars, hstep, if_pos h10, if_pos h10]
  · have hdiv : n / 10 < n := Nat.div_lt_self (by omega) (by omega)
    rw [natChars, hstep, if_neg h10, if_neg h10,
      natCharsAux_fuel_indep (n / 10) n (n / 10 + 1) hdiv (by omega)]
    rfl

theorem natChars_ne_nil (n : Nat) : natChars n ≠ [] := by
  rw [natChars_eq]
  split_ifs <;> simp

theorem natChars_digits (n : Nat) : ∀ c ∈ natChars n, c.isDigit = true := by
  induction n using Nat.strong_induction_on with
  | _ n ih =>
    rw [natChars_eq]
    by_cases h10 : n < 10
    · simp only [if_pos h10, List.mem_singleton]
      rintro c rfl
      exact digitChar_isDigit n h10
    · simp only [if_neg h10, List.mem_append, List.mem_singleton]
      rintro c (hc | rfl)
      · exact ih (n / 10) (Nat.div_lt_self (by omega) (by omega)) c hc
      · exact digitChar_isDigit (n % 10) (Nat.mod_lt _ (by omega))

/-- Value of a digit list (base 10). -/
def digitsVal (l : List Char) : Nat :=
  l.foldl (fun a c => 10 * a + (c.toNat - 48)) 0

theorem digitsVal_natChars (n : Nat) : digitsVal (natChars n) = n := by
  induction n using Nat.strong_induction_on with
  | _ n ih =>
    rw [natChars_eq]
    by_cases h10 : n < 10
    · simp only [if_pos h10]
      unfold digitsVal
      simp only [List.foldl_cons, List.foldl_nil]
      rw [Nat.mul_zero, Nat.zero_add, digitChar_val n h10]
    · simp only [if_neg h10]
      unfold digitsVal at ih ⊢
      rw [List.foldl_append]
      rw [ih (n / 10) (Nat.div_lt_self (by omega) (by omega))]
      simp only [List.foldl_cons, List.foldl_nil]
      rw [digitChar_val (n % 10) (Nat.mod_lt _ (by omega))]
      omega

theorem natChars_inj {a b : Nat} (h : natChars a = natChars b) : a = b := by
  have ha := digitsVal_natChars a
  rw [h, digitsVal_natChars] at ha
  exact ha.symm

theorem natChars_no_sep (n : Nat) : ∀ c ∈ natChars n, c ≠ ':' ∧ c ≠ '|' := by
  intro c hc
  have hd := natChars_digits n c hc
  constructor <;> (rintro rfl; exact absurd hd (by decide))

theorem intChars_inj {i j : Int} (h : intChars i = intChars j) : i = j := by
  cases i with
  | ofNat m =>
    cases j with
    | ofNat n => exact congrArg Int.ofNat (natChars_inj h)
    | negSucc n =>
      exfalso
      have hm : '-' ∈ natChars m := by
        rw [show intChars (Int.ofNat m) = natChars m from rfl] at h
        rw [h]
        exact List.mem_cons_self _ _
      exact absurd (natChars_digits m '-' hm) (by decide)
  | negSucc m =>
    cases j with
    | ofNat n =>
      exfalso
      have hm : '-' ∈ natChars n := by
        rw [show intChars (Int.ofNat n) = natChars n from rfl] at h
        rw [← h]
        exact List.mem_cons_self _ _
      exact absurd (natChars_digits n '-' hm) (by decide)
    | negSucc n =>
      have h' := natChars_inj (List.cons.inj h).2
      have hmn : m = n := by omega
      rw [hmn]

theorem intChars_no_sep (i : Int) : ∀ c ∈ intChars i, c ≠ ':' ∧ c ≠ '|' := by
  intro c hc
  cases i with
  | ofNat m => exact natChars_no_sep m c hc
  | negSucc m =>
    rcases List.mem_cons.mp hc with rfl | hc'
    · exact ⟨by decide, by decide⟩
    · exact natChars_no_sep (m + 1) c hc'

/-! ### Token-splitting lemmas for separator-framed encodings -/

theorem chunk_split (sep : Char) :
    ∀ a x b y : List Char,
      (∀ c ∈ a, c ≠ sep) → (∀ c ∈ b, c ≠ sep) →
      (x = [] ∨ ∃ t, x = sep :: t) → (y = [] ∨ ∃ t, y = sep :: t) →
      a ++ x = b ++ y → a = b ∧ x = y := by
  intro a
  induction a with
  | nil =>
    intro x b y _ hb hx hy h
    cases b with
    | nil => exact ⟨rfl, h⟩
    | cons d bs =>
      exfalso
      simp only [List.nil_append, List.cons_append] at h
      rcases hx with rfl | ⟨t, rfl⟩
      · cases h
      · exact hb d (List.mem_cons_self _ _) (List.cons.inj h).1.symm
  | cons c as ih =>
    intro x b y ha hb hx hy h
    cases b with
    | nil =>
      exfalso
      simp only [List.nil_append, List.cons_append] at h
      rcases hy with rfl | ⟨t, rfl⟩
      · cases h
      · exact ha c (List.mem_cons_self _ _) (List.cons.inj h).1
    | cons d bs =>
      simp only [List.cons_append, List.cons.injEq] at h
      obtain ⟨rfl, h2⟩ := h
      obtain ⟨hab, hxy⟩ := ih x bs y
        (fun e he => ha e (List.mem_cons_of_mem _ he))
        (fun e he => hb e (List.mem_cons_of_mem _ he)) hx hy h2
      exact ⟨by rw [hab], hxy⟩

theorem sep_split (sep : Char) {a x b y : List Char}
    (ha : ∀ c ∈ a, c ≠ sep) (hb : ∀ c ∈ b, c ≠ sep)
    (h : a ++ sep :: x = b ++ sep :: y) : a = b ∧ x = y := by
  obtain ⟨h1, h2⟩ := chunk_split sep a (sep :: x) b (sep :: y) ha hb
    (Or.inr ⟨x, rfl⟩) (Or.inr ⟨y, rfl⟩) h
  exact ⟨h1, (List.cons.inj h2).2⟩

/-! ### The store's stability digest (src/server/store.ts,
`ProcessStore.computeHash`, lines 46-58) -/

/-- JS `Math.round` (round half toward +∞). -/
def jsRound (q : ℚ) : ℤ := ⌊q + 1 / 2⌋

/-- The level names interpolated into the digest. -/
def levelStr : SuspicionLevel → String
  | .LOW => "LOW"
  | .MED => "MED"
  | .HIGH => "HIGH"
  | .CRITICAL => "CRITICAL"

/-- The `|pid:round(cpu*10):level:(outbound+listen)` fragment one row
appends to the digest. -/
def rowHashStr (p : ProcessWireFormat) : String :=
  "|" ++ natStr p.pid ++ ":" ++ intStr (jsRound (p.cpu * 10)) ++ ":" ++
    levelStr p.level ++ ":" ++ natStr (p.connections.outbound + p.connections.listen)

/-- `ProcessStore.computeHash`: the length followed by every row's
fragment. -/
def computeHash (ps : List ProcessWireFormat) : String :=
  ps.foldl (fun hash p => hash ++ rowHashStr p) (natStr ps.length)

/-- The fields of a row that enter the digest. -/
def hashKey (p : ProcessWireFormat) : Nat × ℤ × SuspicionLevel × Nat :=
  (p.pid, jsRound (p.cpu * 10), p.level,
   p.connections.outbound + p.connections.listen)

/-- Character-level payload of one row fragment (everything after the
leading `|`). -/
def rowInner (k : Nat × ℤ × SuspicionLevel × Nat) : List Char :=
  natChars k.1 ++ ':' :: (intChars k.2.1 ++ ':' ::
    ((levelStr k.2.2.1).data ++ ':' :: natChars k.2.2.2))

/-- Character-level encoding of a row list. -/
def encodeRows (ks : List (Nat × ℤ × SuspicionLevel × Nat)) : List Char :=
  (ks.map (fun k => '|' :: rowInner k)).flatten

theorem string_append_data (s t : String) : (s ++ t).data = s.data ++ t.data := by
  cases s
  cases t
  rfl

theorem string_data_inj {s t : String} (h : s.data = t.data) : s = t :=
  congrArg String.mk h

theorem rowHashStr_data (p : ProcessWireFormat) :
    (rowHashStr p).data = '|' :: rowInner (hashKey p) := by
  have h3 : ∀ n, (natStr n).data = natChars n := fun _ => rfl
  have h4 : ∀ i, (intStr i).data = intChars i := fun _ => rfl
  simp only [rowHashStr, rowInner, hashKey, string_append_data, h3, h4]
  simp [List.append_assoc]

theorem computeHash_data (ps : List ProcessWireFormat) :
    (computeHash ps).data = natChars ps.length ++ encodeRows (ps.map hashKey) := by
  suffices h : ∀ (l : List ProcessWireFormat) (init : String),
      (l.foldl (fun hash p => hash ++ rowHashStr p) init).data =
        init.data ++ encodeRows (l.map hashKey) by
    exact h ps (natStr ps.length)
  intro l
  induction l with
  | nil =>
    intro init
    simp [encodeRows]
  | cons p rest ih =>
    intro init
    simp only [List.foldl_cons, List.map_cons]
    rw [ih (init ++ rowHashStr p), string_append_data, rowHashStr_data]
    simp [encodeRows, List.append_assoc]

theorem encodeRows_shape (ks : List (Nat × ℤ × SuspicionLevel × Nat)) :
    encodeRows ks = [] ∨ ∃ t, encodeRows ks = '|' :: t := by
  cases ks with
  | nil => exact Or.inl rfl
  | cons k rest =>
    exact Or.inr ⟨rowInner k ++ encodeRows rest, by simp [encodeRows]⟩

theorem levelStr_no_sep (lvl : SuspicionLevel) :
    ∀ c ∈ (levelStr lvl).data, c ≠ ':' ∧ c ≠ '|' := by
  cases lvl <;> decide

theorem levelStr_inj {a b : SuspicionLevel} (h : levelStr a = levelStr b) :
    a = b := by
  cases a <;> cases b <;> first | rfl | (exfalso; revert h; decide)

theorem rowInner_no_bar (k : Nat × ℤ × SuspicionLevel × Nat) :
    ∀ c ∈ rowInner k, c ≠ '|' := by
  intro c hc
  simp only [rowInner, List.mem_append, List.mem_cons] at hc
  rcases hc with h | rfl | h | rfl | h | rfl | h
  · exact (natChars_no_sep _ c h).2
  · decide
  · exact (intChars_no_sep _ c h).2
  · decide
  · exact (levelStr_no_sep _ c h).2
  · decide
  · exact (natChars_no_sep _ c h).2

theorem rowInner_inj :
    ∀ k₁ k₂ : Nat × ℤ × SuspicionLevel × Nat,
      rowInner k₁ = rowInner k₂ → k₁ = k₂ := by
  rintro ⟨p₁, r₁, l₁, c₁⟩ ⟨p₂, r₂, l₂, c₂⟩ h
  simp only [rowInner] at h
  obtain ⟨h1, h2⟩ := sep_split ':'
    (fun c hc => (natChars_no_sep _ c hc).1)
    (fun c hc => (natChars_no_sep _ c hc).1) h
  obtain ⟨h3, h4⟩ := sep_split ':'
    (fun c hc => (intChars_no_sep _ c hc).1)
    (fun c hc => (intChars_no_sep _ c hc).1) h2
  obtain ⟨h5, h6⟩ := sep_split ':'
    (fun c hc => (levelStr_no_sep _ c hc).1)
    (fun c hc => (levelStr_no_sep _ c hc).1) h4
  have e1 := natChars_inj h1
  have e2 := intChars_inj h3
  have e3 := levelStr_inj (string_data_inj h5)
  have e4 := natChars_inj h6
  simp [e1, e2, e3, e4]

theorem encodeRows_inj :
    ∀ ks₁ ks₂ : List (Nat × ℤ × SuspicionLevel × Nat),
      ks₁.length = ks₂.length → encodeRows ks₁ = encodeRows ks₂ → ks₁ = ks₂ := by
  intro ks₁
  induction ks₁ with
  | nil =>
    intro ks₂ hlen _
    cases ks₂ with
    | nil => rfl
    | cons k t => simp at hlen
  | cons k₁ t₁ ih =>
    intro ks₂ hlen henc
    cases ks₂ with
    | nil => simp at hlen
    | cons k₂ t₂ =>
      simp only [encodeRows, List.map_cons, List.flatten_cons,
        List.cons_append] at henc
      have h2 := (List.cons.inj henc).2
      obtain ⟨hinner, hrest⟩ := chunk_split '|' (rowInner k₁) (encodeRows t₁)
        (rowInner k₂) (encodeRows t₂) (rowInner_no_bar k₁) (rowInner_no_bar k₂)
        (encodeRows_shape t₁) (encodeRows_shape t₂) h2
      have hk := rowInner_inj k₁ k₂ hinner
      have hlen' : t₁.length = t₂.length := by simpa using hlen
      rw [hk, ih t₂ hlen' hrest]

theorem computeHash_inj {S T : List ProcessWireFormat}
    (h : computeHash S = computeHash T) : S.map hashKey = T.map hashKey := by
  have hd : (computeHash S).data = (computeHash T).data := by rw [h]
  rw [computeHash_data, computeHash_data] at hd
  obtain ⟨hlen, henc⟩ := chunk_split '|' _ _ _ _
    (fun c hc => (natChars_no_sep _ c hc).2)
    (fun c hc => (natChars_no_sep _ c hc).2)
    (encodeRows_shape _) (encodeRows_shape _) hd
  exact encodeRows_inj _ _ (by simpa using natChars_inj hlen) henc

/-- C8: the store digest is deterministic, and two sequences whose
lengths differ, or in which some positionally corresponding rows differ
in pid, round(cpu*10), level, or outbound+listen, have different
digests. -/
theorem store_digest_spec (S T : List ProcessWireFormat) :
    (S = T → computeHash S = computeHash T) ∧
    ((S.length ≠ T.length ∨
        ∃ i, ∃ (h₁ : i < S.length) (h₂ : i < T.length),
          hashKey (S.get ⟨i, h₁⟩) ≠ hashKey (T.get ⟨i, h₂⟩)) →
      computeHash S ≠ computeHash T) := by
  refine ⟨fun h => by rw [h], ?_⟩
  intro hdiff heq
  have hmap := computeHash_inj heq
  have hlen : S.length = T.length := by
    have := congrArg List.length hmap
    simpa using this
  rcases hdiff with h | ⟨i, h₁, h₂, hne⟩
  · exact h hlen
  · apply hne
    have hmS : i < (S.map hashKey).length := by simpa using h₁
    have h1 := List.getElem_map hashKey (l := S) (n := i) (h := hmS)
    have h2 := List.getElem_map hashKey (l := T) (n := i)
      (h := by rw [hmap] at hmS; exact hmS)
    rw [List.get_eq_getElem, List.get_eq_getElem, ← h1, ← h2]
    congr 1

/-- C8 witness: an empty and a one-row sequence have different lengths,
hence different digests. -/
theorem store_digest_spec_witness :
    computeHash [] ≠ computeHash [{ pid := 5 }] :=
  (store_digest_spec [] [{ pid := 5 }]).2 (Or.inl (by decide))

/-! ### Websocket heartbeat and liveness (server/websocket.ts lines
116-158)

The handler's per-connection mutable state is `lastResponseTime` plus
whether the server has closed the socket.  Inbound client messages and
the 5-second liveness checks become an event trace; the 30-second
heartbeat sender never touches this state. -/

/-- `setInterval(..., 30000)`: the heartbeat send period. -/
def heartbeatIntervalMs : Nat := 30000

/-- `setInterval(..., 5000)`: the liveness check period. -/
def aliveCheckPeriodMs : Nat := 5000

/-- The 35000 ms staleness threshold of the liveness check. -/
def aliveThresholdMs : Nat := 35000

/-- Parsed `data.type` of an inbound client message: the switch handles
`ping` and `pong`; everything else (including parse failures) is
ignored. -/
inductive ClientMsg
  | ping
  | pong
  | other
deriving DecidableEq

/-- One observable event on a connection: a client message arriving, or
one firing of the 5-second liveness check, each stamped with
`Date.now()`. -/
inductive WsEvent
  | clientMsg (m : ClientMsg) (now : Nat)
  | aliveCheck (now : Nat)
deriving DecidableEq

/-- Per-connection server state. -/
structure WsConnState where
  lastResponseTime : Nat
  closed : Bool
deriving DecidableEq

/-- State right after the handler attaches (`lastResponseTime =
Date.now()`). -/
def wsInit (t0 : Nat) : WsConnState := ⟨t0, false⟩

/-- One event against the handler: only a `pong` refreshes
`lastResponseTime` (lines 150-153); the liveness check closes the socket
when the last response is more than 35000 ms old (lines 128-137); a
closed socket stays closed. -/
def wsStep (s : WsConnState) (e : WsEvent) : WsConnState :=
  if s.closed then s
  else
    match e with
    | .clientMsg m now => if m = .pong then ⟨now, false⟩ else s
    | .aliveCheck now =>
      if now - s.lastResponseTime > aliveThresholdMs then
        ⟨s.lastResponseTime, true⟩
      else s

/-- Run a trace of events. -/
def wsRun (s : WsConnState) (es : List WsEvent) : WsConnState :=
  es.foldl wsStep s

/-- Time of the latest `pong` in a trace (the attach time when none). -/
def lastPongTime (t0 : Nat) (es : List WsEvent) : Nat :=
  es.foldl
    (fun acc e =>
      match e with
      | .clientMsg .pong t => t
      | _ => acc) t0

/-- C9 counterexample: a `ping` received 34 s in does not refresh the
liveness deadline (only `pong` does), so the check at 36 s closes the
connection even though the client's last inbound message is only 2 s
old — the claim says any inbound message refreshes and closure happens
exactly at 35 s staleness. -/
theorem ping_does_not_refresh_liveness :
    (wsRun (wsInit 0)
      [.clientMsg .ping 34000, .aliveCheck 36000]).closed = true ∧
    36000 - 34000 ≤ aliveThresholdMs := by
  decide

theorem wsRun_closed_sticky (es : List WsEvent) (s : WsConnState)
    (h : s.closed = true) : wsRun s es = s := by
  induction es with
  | nil => rfl
  | cons e rest ih =>
    show wsRun (wsStep s e) rest = s
    rw [wsStep.eq_def, if_pos h]
    exact ih

/-- C9 amended: the server sends a heartbeat every 30 s, and the
connection ends up closed exactly when some liveness check fires more
than 35 s after the latest preceding `pong` (or after attach when no
pong preceded); `ping` and unknown messages do not refresh the
deadline. -/
theorem ws_closure_characterization :
    heartbeatIntervalMs = 30000 ∧
    ∀ (es : List WsEvent) (t0 : Nat),
      (wsRun (wsInit t0) es).closed = true ↔
        ∃ es₁ t es₂, es = es₁ ++ .aliveCheck t :: es₂ ∧
          t - lastPongTime t0 es₁ > aliveThresholdMs := by
  refine ⟨rfl, ?_⟩
  intro es
  induction es with
  | nil =>
    intro t0
    constructor
    · intro h
      cases h
    · rintro ⟨es₁, t, es₂, heq, _⟩
      cases es₁ <;> cases heq
  | cons e rest ih =>
    intro t0
    cases e with
    | clientMsg m t =>
      have hstep : wsRun (wsInit t0) (.clientMsg m t :: rest) =
          wsRun (wsInit (if m = .pong then t else t0)) rest := by
        show wsRun (wsStep (wsInit t0) (.clientMsg m t)) rest = _
        cases m <;> simp [wsStep, wsInit]
      rw [hstep, ih]
      constructor
      · rintro ⟨es₁, t', es₂, rfl, hgt⟩
        refine ⟨.clientMsg m t :: es₁, t', es₂, rfl, ?_⟩
        cases m <;> simpa [lastPongTime] using hgt
      · rintro ⟨es₁, t', es₂, heq, hgt⟩
        cases es₁ with
        | nil => cases heq
        | cons f es₁' =>
          obtain ⟨rfl, rfl⟩ : f = .clientMsg m t ∧ rest = es₁' ++ .aliveCheck t' :: es₂ := by
            have h1 := (List.cons.inj heq).1
            have h2 := (List.cons.inj heq).2
            exact ⟨h1.symm, h2⟩
          refine ⟨es₁', t', es₂, rfl, ?_⟩
          cases m <;> simpa [lastPongTime] using hgt
    | aliveCheck t =>
      by_cases hgt : t - t0 > aliveThresholdMs
      · have hstep : wsRun (wsInit t0) (.aliveCheck t :: rest) = ⟨t0, true⟩ := by
          show wsRun (wsStep (wsInit t0) (.aliveCheck t)) rest = _
          rw [wsStep.eq_def]
          simp only [wsInit, if_neg (by simp : ¬(false = true))]
          rw [if_pos hgt]
          exact wsRun_closed_sticky rest _ rfl
        rw [hstep]
        simp only [true_iff]
        exact ⟨[], t, rest, rfl, by simpa [lastPongTime] using hgt⟩
      · have hstep : wsRun (wsInit t0) (.aliveCheck t :: rest) =
            wsRun (wsInit t0) rest := by
          show wsRun (wsStep (wsInit t0) (.aliveCheck t)) rest = _
          rw [wsStep.eq_def]
          simp only [wsInit, if_neg (by simp : ¬(false = true))]
          rw [if_neg hgt]
        rw [hstep, ih]
        constructor
        · rintro ⟨es₁, t', es₂, rfl, hgt'⟩
          exact ⟨.aliveCheck t :: es₁, t', es₂, rfl,
            by simpa [lastPongTime] using hgt'⟩
        · rintro ⟨es₁, t', es₂, heq, hgt'⟩
          cases es₁ with
          | nil =>
            obtain ⟨ht, hrest⟩ : WsEvent.aliveCheck t = .aliveCheck t' ∧ rest = es₂ := by
              have h1 := (List.cons.inj heq).1
              have h2 := (List.cons.inj heq).2
              exact ⟨h1, h2⟩
            exfalso
            apply hgt
            have : t = t' := by injection ht
            rw [this]
            simpa [lastPongTime] using hgt'
          | cons f es₁' =>
            obtain ⟨rfl, hrest⟩ : f = .aliveCheck t ∧ rest = es₁' ++ .aliveCheck t' :: es₂ := by
              have h1 := (List.cons.inj heq).1
              have h2 := (List.cons.inj heq).2
              exact ⟨h1.symm, h2⟩
            exact ⟨es₁', t', es₂, hrest, by simpa [lastPongTime] using hgt'⟩

end Macscope
